import Mathlib

/-!
Verification of the poker backend (engine.py, poker_math.py, advanced_engine.py,
app.py) against its natural-language specification.

Conventions of the embedding:
* Python floats are embedded as rationals (`ℚ`); every constant appearing in
  the verified code paths is exactly representable, and the claims under
  scrutiny concern exact threshold comparisons and closed-form arithmetic.
* The external `treys` library (card evaluation) is not repository code; it
  enters `engine.py` only through `evaluator.evaluate`.  It is embedded as an
  explicit function parameter `ev : List String → List String → ℤ`
  (arguments: completed board, hand), so every theorem quantifies over the
  evaluator's behaviour unless a concrete instantiation is needed for a
  closed counterexample.
* Randomness (`treys.Deck()` shuffling) is embedded as an injected oracle
  `decks : ℕ → List String` giving the shuffled 52-card deck used by each
  Monte-Carlo trial; draws pop from the front of the list, exactly as
  `Deck.draw` pops cards in order from a shuffled deck.
* Cards are represented by their two-character tokens (e.g. "Ah"); `treys`
  card parsing is a bijection on valid tokens, so nothing is lost.
-/

/-- Result of one Monte-Carlo trial in `estimate_win_probability`
(engine.py lines 54-59): exactly one of the three counters is bumped. -/
inductive Outcome
  | win
  | tie
  | loss
deriving DecidableEq, BEq

/-- The win/tie/loss decision of one trial (engine.py lines 52-59):
`best_opp` is Python's `min(...)` over the opponents' scores, and the
player wins iff their treys score is strictly below it, ties iff equal.
Python's `min` raises on an empty sequence (zero opponents); that
unreachable-for-valid-input case is mapped to `loss` here, and every
theorem touching it assumes at least one opponent. -/
def classify_trial (player_score : ℤ) (opp_scores : List ℤ) : Outcome :=
  match opp_scores with
  | [] => Outcome.loss
  | s :: rest =>
    if player_score < rest.foldl min s then Outcome.win
    else if player_score = rest.foldl min s then Outcome.tie
    else Outcome.loss

/-- One iteration of the Monte-Carlo loop in `estimate_win_probability`
(engine.py lines 36-59): rebuild the deck, remove the known cards (Python
uses `set(hole_cards + community_cards)`, and the deck holds distinct
cards, so removal equals filtering), deal two cards to each opponent,
complete the board, evaluate everything.  `deck0` is the shuffled deck of
this trial; a draw from an exhausted deck raises IndexError in Python and
is padded with `""` here — claims about this function assume a full deck,
which always leaves enough cards for their inputs. -/
def sim_trial (ev : List String → List String → ℤ) (deck0 : List String)
    (hole_cards community_cards : List String) (num_opponents : ℕ) : Outcome :=
  let known := hole_cards ++ community_cards
  let deck := deck0.filter (fun c => decide (c ∉ known))
  let opp_hands := (List.range num_opponents).map
    (fun j => [deck.getD (2 * j) "", deck.getD (2 * j + 1) ""])
  let needed := 5 - community_cards.length
  let community_draw := (deck.drop (2 * num_opponents)).take needed
  let full_board := community_cards ++ community_draw
  let player_score := ev full_board hole_cards
  let opp_scores := opp_hands.map (fun h => ev full_board h)
  classify_trial player_score opp_scores

/-- The list of the `trials` trial outcomes of the Monte-Carlo loop. -/
def sim_outcomes (ev : List String → List String → ℤ) (decks : ℕ → List String)
    (hole_cards community_cards : List String) (num_opponents trials : ℕ) :
    List Outcome :=
  (List.range trials).map
    (fun i => sim_trial ev (decks i) hole_cards community_cards num_opponents)

/-- The `wins = ties = losses = 0` accumulation of engine.py lines 34-59:
count each kind of outcome. -/
def tally : List Outcome → ℕ × ℕ × ℕ
  | [] => (0, 0, 0)
  | Outcome.win :: rest => ((tally rest).1 + 1, (tally rest).2.1, (tally rest).2.2)
  | Outcome.tie :: rest => ((tally rest).1, (tally rest).2.1 + 1, (tally rest).2.2)
  | Outcome.loss :: rest => ((tally rest).1, (tally rest).2.1, (tally rest).2.2 + 1)

/-- `estimate_win_probability` (engine.py lines 27-62): Monte-Carlo
simulation returning `(wins/total, ties/total, losses/total)`. -/
def estimate_win_probability (ev : List String → List String → ℤ)
    (decks : ℕ → List String) (hole_cards community_cards : List String)
    (num_opponents trials : ℕ) : ℚ × ℚ × ℚ :=
  let c := tally (sim_outcomes ev decks hole_cards community_cards num_opponents trials)
  ((c.1 : ℚ) / (trials : ℚ), (c.2.1 : ℚ) / (trials : ℚ), (c.2.2 : ℚ) / (trials : ℚ))

/-- The 52-card deck of `treys.Deck()`, as tokens.  The shuffle oracle may
present it in any order; this fixed order serves concrete instantiations. -/
def full_deck : List String :=
  ["2s", "2h", "2d", "2c", "3s", "3h", "3d", "3c",
   "4s", "4h", "4d", "4c", "5s", "5h", "5d", "5c",
   "6s", "6h", "6d", "6c", "7s", "7h", "7d", "7c",
   "8s", "8h", "8d", "8c", "9s", "9h", "9d", "9c",
   "Ts", "Th", "Td", "Tc", "Js", "Jh", "Jd", "Jc",
   "Qs", "Qh", "Qd", "Qc", "Ks", "Kh", "Kd", "Kc",
   "As", "Ah", "Ad", "Ac"]

/-- A concrete instantiation of the external-evaluator parameter, used only
to build closed witnesses and counterexamples.  The repository code raises
no validation error of its own for any evaluator, so any instantiation is
a faithful stand-in for the treys evaluator in those closed statements. -/
def const_eval : List String → List String → ℤ := fun _ _ => 0

/-- A concrete instantiation of the shuffle oracle: every trial sees the
deck in `full_deck` order. -/
def const_decks : ℕ → List String := fun _ => full_deck

/-- The spec's invalid-hand condition: some card occurs in both the hole
cards and the board cards. -/
def has_duplicate_cards (hole_cards community_cards : List String) : Bool :=
  hole_cards.any (fun c => decide (c ∈ community_cards))

/-- Cache keys of `AdvancedPokerEngine.equity_cache`. -/
abbrev CacheKey := List String × List String × ℕ

/-- The cache key built by `_calculate_raw_equity` (advanced_engine.py line
197): `(tuple(hole_cards), tuple(community_cards), num_opponents)` — the
card tuples in the order given by the caller, with no sorting. -/
def cache_key (hole_cards community_cards : List String) (num_opponents : ℕ) :
    CacheKey :=
  (hole_cards, community_cards, num_opponents)

/-- Dictionary lookup in the equity cache (`cache_key in self.equity_cache`). -/
def lookup_cache (k : CacheKey) : List (CacheKey × ℚ) → Option ℚ
  | [] => none
  | (k2, v) :: rest => if k = k2 then some v else lookup_cache k rest

/-- `AdvancedPokerEngine._calculate_raw_equity` (advanced_engine.py lines
193-210): on a cache hit return the stored equity and leave the cache
unchanged; on a miss run the simulation, store `win + tie * 0.5` under the
key and return it.  The dict is embedded as an association list searched
from the most recent insertion. -/
def calculate_raw_equity (ev : List String → List String → ℤ)
    (decks : ℕ → List String) (cache : List (CacheKey × ℚ))
    (hole_cards community_cards : List String) (num_opponents : ℕ)
    (trials : ℕ := 10000) : ℚ × List (CacheKey × ℚ) :=
  let k := cache_key hole_cards community_cards num_opponents
  match lookup_cache k cache with
  | some v => (v, cache)
  | none =>
    let r := estimate_win_probability ev decks hole_cards community_cards
      num_opponents trials
    let equity := r.1 + r.2.1 * 0.5
    (equity, (k, equity) :: cache)

/-- The `position_adjustments` table of `AdvancedEquityCalculator.__init__`
(poker_math.py lines 211-218), with the dict's `.get(position, 0.0)`
default folded in. -/
def position_adjustments (position : String) : ℚ :=
  if position = "early" then -0.05
  else if position = "middle" then 0.0
  else if position = "late" then 0.05
  else if position = "button" then 0.08
  else if position = "small_blind" then -0.03
  else if position = "big_blind" then -0.02
  else 0.0

/-- `AdvancedEquityCalculator._calculate_spr_adjustment` (poker_math.py
lines 253-259). -/
def spr_adjustment (spr equity : ℚ) : ℚ :=
  if spr < 1 then (if equity > 0.7 then 0.05 else -0.05)
  else if spr > 10 then (if equity < 0.3 then -0.02 else 0.02)
  else 0.0

/-- `AdvancedEquityCalculator._calculate_aggression_adjustment`
(poker_math.py lines 261-268). -/
def aggression_adjustment (opponent_aggression equity : ℚ) : ℚ :=
  if opponent_aggression > 0.7 then (if equity < 0.6 then -0.03 else 0.02)
  else if opponent_aggression < 0.3 then (if equity > 0.4 then 0.02 else -0.01)
  else 0.0

/-- `AdvancedEquityCalculator._calculate_bluff_value` (poker_math.py lines
274-285).  `fold_to_bet` is `opponent_tendencies.get('fold_to_bet', 0.5)`:
`none` models a dict without the key. -/
def calculate_bluff_value (position : String) (fold_to_bet : Option ℚ) : ℚ :=
  let base1 := (0.1 : ℚ) + (if position = "button" ∨ position = "late" then 0.05 else 0)
  let base2 := base1 + (fold_to_bet.getD 0.5 - 0.5) * 0.2
  max 0.0 (min 0.5 base2)

/-- The `HandEquity` dataclass (poker_math.py lines 34-41). -/
structure HandEquity where
  raw_equity : ℚ
  adjusted_equity : ℚ
  showdown_value : ℚ
  bluff_value : ℚ
  position_adjustment : ℚ
deriving DecidableEq

/-- `AdvancedEquityCalculator.calculate_adjusted_equity` (poker_math.py
lines 220-251).  The `opponent_tendencies` dict enters only through
`.get('aggression', 0.5)` and `.get('fold_to_bet', 0.5)`, embedded as the
two `Option ℚ` arguments. -/
def calculate_adjusted_equity (raw_equity : ℚ) (position : String)
    (stack_size pot_size : ℚ) (aggression fold_to_bet : Option ℚ) : HandEquity :=
  let position_adj := position_adjustments position
  let spr := if pot_size > 0 then stack_size / pot_size else 10
  let spr_adj := spr_adjustment spr raw_equity
  let aggression_adj := aggression_adjustment (aggression.getD 0.5) raw_equity
  let adjusted := max 0.0 (min 1.0 (raw_equity + position_adj + spr_adj + aggression_adj))
  { raw_equity := raw_equity
    adjusted_equity := adjusted
    showdown_value := adjusted * 0.8
    bluff_value := calculate_bluff_value position fold_to_bet
    position_adjustment := position_adj }

/-- The `PREFLOP_STRENGTH` matrix (poker_math.py lines 61-73), with the
`.get(hand, 0.3)` default used by `_calculate_range_strength` folded in. -/
def preflop_strength (hand : String) : ℚ :=
  if hand = "AA" then 0.85 else if hand = "KK" then 0.82
  else if hand = "QQ" then 0.80 else if hand = "JJ" then 0.77
  else if hand = "TT" then 0.75
  else if hand = "AKs" then 0.67 else if hand = "AQs" then 0.66
  else if hand = "AJs" then 0.65 else if hand = "ATs" then 0.64
  else if hand = "A9s" then 0.62
  else if hand = "AKo" then 0.65 else if hand = "AQo" then 0.64
  else if hand = "AJo" then 0.63 else if hand = "ATo" then 0.62
  else if hand = "A9o" then 0.60
  else if hand = "KQs" then 0.63 else if hand = "KJs" then 0.62
  else if hand = "KTs" then 0.61 else if hand = "K9s" then 0.59
  else if hand = "K8s" then 0.57
  else if hand = "KQo" then 0.61 else if hand = "KJo" then 0.60
  else if hand = "KTo" then 0.59 else if hand = "K9o" then 0.57
  else if hand = "K8o" then 0.55
  else if hand = "QJs" then 0.60 else if hand = "QTs" then 0.59
  else if hand = "Q9s" then 0.57 else if hand = "Q8s" then 0.55
  else if hand = "Q7s" then 0.53
  else if hand = "QJo" then 0.58 else if hand = "QTo" then 0.57
  else if hand = "Q9o" then 0.55 else if hand = "Q8o" then 0.53
  else if hand = "Q7o" then 0.51
  else if hand = "JTs" then 0.57 else if hand = "J9s" then 0.55
  else if hand = "J8s" then 0.53 else if hand = "J7s" then 0.51
  else if hand = "J6s" then 0.49
  else if hand = "JTo" then 0.55 else if hand = "J9o" then 0.53
  else if hand = "J8o" then 0.51 else if hand = "J7o" then 0.49
  else if hand = "J6o" then 0.47
  else if hand = "99" then 0.72 else if hand = "88" then 0.69
  else if hand = "77" then 0.66 else if hand = "66" then 0.63
  else if hand = "55" then 0.60 else if hand = "44" then 0.57
  else if hand = "33" then 0.54 else if hand = "22" then 0.51
  else 0.3

/-- `GameTheoryOptimal._calculate_range_strength` (poker_math.py lines
405-414).  Python raises ZeroDivisionError on an empty range; Lean's total
division returns 0 there, which is why theorems over this code path assume
nonempty ranges. -/
def range_strength (our_range opponent_range : List String) : ℚ :=
  let our_strength := (our_range.map preflop_strength).sum / (our_range.length : ℚ)
  let opp_strength := (opponent_range.map preflop_strength).sum / (opponent_range.length : ℚ)
  our_strength / (our_strength + opp_strength)

/-- The pre-normalization strategy weights of
`GameTheoryOptimal.calculate_gto_strategy` (poker_math.py lines 379-395):
all three start at 0; `raise` gains 0.1 on the button or in late position;
a short stack (below 20) adds 0.1 to `fold` and `raise` and subtracts 0.2
from `call`.  Triple order: (fold, call, raise). -/
def gto_pre_norm (position : String) (stack_depth : ℚ) : ℚ × ℚ × ℚ :=
  let raise0 : ℚ := if position = "button" ∨ position = "late" then 0.1 else 0.0
  if stack_depth < 20 then (0.1, -0.2, raise0 + 0.1) else (0.0, 0.0, raise0)

/-- `GameTheoryOptimal.calculate_gto_strategy` (poker_math.py lines
373-403): compute the (unused) range strength, accumulate the weights,
then divide each by their sum when that sum is positive, otherwise return
them untouched.  Triple order: (fold, call, raise). -/
def calculate_gto_strategy (position : String) (stack_depth pot_size : ℚ)
    (hand_range opponent_range : List String) : ℚ × ℚ × ℚ :=
  let _hand_strength := range_strength hand_range opponent_range
  let s := gto_pre_norm position stack_depth
  let total := s.1 + s.2.1 + s.2.2
  if total > 0 then (s.1 / total, s.2.1 / total, s.2.2 / total) else s

/-- The `Position` enum of advanced_engine.py (lines 23-29). -/
inductive Position
  | early
  | middle
  | late
  | button
  | small_blind
  | big_blind
deriving DecidableEq

/-- The `position_strength` local of `_determine_optimal_action`
(advanced_engine.py line 266): 1.0 on the button or in late position,
otherwise 0.8. -/
def position_strength (position : Position) : ℚ :=
  if position = Position.button ∨ position = Position.late then 1.0 else 0.8

/-- `AdvancedPokerEngine._determine_optimal_action` (advanced_engine.py
lines 260-298).  Arguments flattened from `(game_state, hand_equity,
opponent_profile)` to the fields actually read: the pot size, the adjusted
equity, the opponent's fold-to-cbet and the hand's bluff value. -/
def determine_optimal_action (position : Position) (pot_size : ℚ)
    (adjusted_equity fold_to_cbet bluff_value : ℚ) : String × ℚ :=
  if adjusted_equity > 0.8 then ("raise", pot_size * 0.75)
  else if adjusted_equity > 0.6 then
    (if position_strength position > 0.8 then ("raise", pot_size * 0.6)
     else ("call", 0.0))
  else if adjusted_equity > 0.4 then
    (if position_strength position > 0.8 ∧ fold_to_cbet > 0.6 then
      ("raise", pot_size * 0.5)
     else ("call", 0.0))
  else if adjusted_equity > 0.25 then
    (if position_strength position > 0.8 ∧ fold_to_cbet > 0.7 ∧ bluff_value > 0.15 then
      ("raise", pot_size * 0.4)
     else ("fold", 0.0))
  else ("fold", 0.0)

/-- Modelled from the spec: the five-band action rule exactly as the spec
words it ("strong position" meaning button or late), to be compared with
the code's `determine_optimal_action`. -/
def optimal_action_spec (position : Position) (pot_size : ℚ)
    (adjusted_equity fold_to_cbet bluff_value : ℚ) : String × ℚ :=
  let strong := position = Position.button ∨ position = Position.late
  if adjusted_equity > 0.8 then ("raise", pot_size * 0.75)
  else if adjusted_equity > 0.6 then
    (if strong then ("raise", pot_size * 0.6) else ("call", 0.0))
  else if adjusted_equity > 0.4 then
    (if strong ∧ fold_to_cbet > 0.6 then ("raise", pot_size * 0.5)
     else ("call", 0.0))
  else if adjusted_equity > 0.25 then
    (if strong ∧ fold_to_cbet > 0.7 ∧ bluff_value > 0.15 then
      ("raise", pot_size * 0.4)
     else ("fold", 0.0))
  else ("fold", 0.0)

/-- `AdvancedPokerEngine._get_bankroll_recommendation` (advanced_engine.py
lines 328-344): the stake reference is the big blind (`blinds[1]`), a
buy-in is 100 big blinds, and the tier follows the bankroll-to-buy-in
ratio.  The `equity` argument of the Python method is never read. -/
def get_bankroll_recommendation (big_blind _equity bankroll : ℚ) : String :=
  let buy_in := big_blind * 100
  let r := bankroll / buy_in
  if r < 20 then "DANGER: Insufficient bankroll for this stake level"
  else if r < 40 then "CAUTION: Playing above recommended bankroll level"
  else if r < 100 then "ACCEPTABLE: Adequate bankroll for this stake"
  else "SAFE: Strong bankroll for this stake level"

/-- The `recommendation` field of the `/analyze/bankroll` endpoint (app.py
lines 241-245): a plain bankroll-to-stake-level ratio with thresholds 100
and 40. -/
def analyze_bankroll_recommendation (bankroll stake_level : ℚ) : String :=
  if bankroll / stake_level > 100 then "SAFE"
  else if bankroll / stake_level > 40 then "CAUTION"
  else "DANGER"

lemma tally_sum (l : List Outcome) :
    (tally l).1 + (tally l).2.1 + (tally l).2.2 = l.length := by
  induction l with
  | nil => rfl
  | cons o rest ih => cases o <;> simp only [tally, List.length_cons] <;> omega

lemma sim_outcomes_length (ev : List String → List String → ℤ)
    (decks : ℕ → List String) (hole_cards community_cards : List String)
    (num_opponents trials : ℕ) :
    (sim_outcomes ev decks hole_cards community_cards num_opponents trials).length = trials := by
  simp [sim_outcomes]

lemma estimate_spec (ev : List String → List String → ℤ) (decks : ℕ → List String)
    (hole_cards community_cards : List String) (num_opponents trials : ℕ)
    (ht : 1 ≤ trials) :
    (0 ≤ (estimate_win_probability ev decks hole_cards community_cards num_opponents trials).1 ∧
      (estimate_win_probability ev decks hole_cards community_cards num_opponents trials).1 ≤ 1) ∧
    (0 ≤ (estimate_win_probability ev decks hole_cards community_cards num_opponents trials).2.1 ∧
      (estimate_win_probability ev decks hole_cards community_cards num_opponents trials).2.1 ≤ 1) ∧
    (0 ≤ (estimate_win_probability ev decks hole_cards community_cards num_opponents trials).2.2 ∧
      (estimate_win_probability ev decks hole_cards community_cards num_opponents trials).2.2 ≤ 1) ∧
    (estimate_win_probability ev decks hole_cards community_cards num_opponents trials).1 +
      (estimate_win_probability ev decks hole_cards community_cards num_opponents trials).2.1 +
      (estimate_win_probability ev decks hole_cards community_cards num_opponents trials).2.2 = 1 := by
  have hlen := sim_outcomes_length ev decks hole_cards community_cards num_opponents trials
  have hsum : (tally (sim_outcomes ev decks hole_cards community_cards num_opponents trials)).1 +
      (tally (sim_outcomes ev decks hole_cards community_cards num_opponents trials)).2.1 +
      (tally (sim_outcomes ev decks hole_cards community_cards num_opponents trials)).2.2 = trials := by
    rw [tally_sum, hlen]
  have htpos : (0 : ℚ) < (trials : ℚ) := by
    exact_mod_cast Nat.lt_of_lt_of_le Nat.zero_lt_one ht
  have htne : ((trials : ℚ)) ≠ 0 := ne_of_gt htpos
  simp only [estimate_win_probability]
  refine ⟨⟨?_, ?_⟩, ⟨?_, ?_⟩, ⟨?_, ?_⟩, ?_⟩
  · exact div_nonneg (Nat.cast_nonneg _) (le_of_lt htpos)
  · exact (div_le_one htpos).mpr (by exact_mod_cast (by omega :
      (tally (sim_outcomes ev decks hole_cards community_cards num_opponents trials)).1 ≤ trials))
  · exact div_nonneg (Nat.cast_nonneg _) (le_of_lt htpos)
  · exact (div_le_one htpos).mpr (by exact_mod_cast (by omega :
      (tally (sim_outcomes ev decks hole_cards community_cards num_opponents trials)).2.1 ≤ trials))
  · exact div_nonneg (Nat.cast_nonneg _) (le_of_lt htpos)
  · exact (div_le_one htpos).mpr (by exact_mod_cast (by omega :
      (tally (sim_outcomes ev decks hole_cards community_cards num_opponents trials)).2.2 ≤ trials))
  · rw [div_add_div_same, div_add_div_same, ← Nat.cast_add, ← Nat.cast_add, hsum]
    exact div_self htne

lemma foldl_min_mem (x : ℤ) (xs : List ℤ) : xs.foldl min x ∈ x :: xs := by
  induction xs generalizing x with
  | nil => simp
  | cons a rest ih =>
    rw [List.foldl_cons]
    rcases List.mem_cons.mp (ih (min x a)) with heq | hmem
    · rcases min_choice x a with hm | hm
      · rw [heq, hm]; exact List.mem_cons_self _ _
      · rw [heq, hm]; exact List.mem_cons_of_mem _ (List.mem_cons_self _ _)
    · exact List.mem_cons_of_mem _ (List.mem_cons_of_mem _ hmem)

lemma foldl_min_le (x : ℤ) (xs : List ℤ) : ∀ y ∈ x :: xs, xs.foldl min x ≤ y := by
  induction xs generalizing x with
  | nil =>
    intro y hy
    rw [List.mem_singleton] at hy
    simp [hy]
  | cons a rest ih =>
    intro y hy
    rw [List.foldl_cons]
    rcases List.mem_cons.mp hy with heq | hy2
    · rw [heq]
      exact le_trans (ih (min x a) (min x a) (List.mem_cons_self _ _)) (min_le_left x a)
    · rcases List.mem_cons.mp hy2 with heq | hy3
      · rw [heq]
        exact le_trans (ih (min x a) (min x a) (List.mem_cons_self _ _)) (min_le_right x a)
      · exact ih (min x a) y (List.mem_cons_of_mem _ hy3)

/-- C4: in each simulation trial the outcome computed from the treys scores
is a win exactly when the player's score strictly beats (is below) every
opponent's score, a tie exactly when some opponent's score equals the
player's and no opponent's score beats it, and a loss exactly when some
opponent's score beats the player's — the code's comparison of
`player_score` against `min` of the opponents' scores is equivalent to
that description. -/
theorem classify_trial_characterization (p s : ℤ) (rest : List ℤ) :
    (classify_trial p (s :: rest) = Outcome.win ↔ ∀ q ∈ s :: rest, p < q) ∧
    (classify_trial p (s :: rest) = Outcome.tie ↔
      ((∃ q ∈ s :: rest, q = p) ∧ ∀ q ∈ s :: rest, ¬ q < p)) ∧
    (classify_trial p (s :: rest) = Outcome.loss ↔ ∃ q ∈ s :: rest, q < p) := by
  have hmem := foldl_min_mem s rest
  have hle := foldl_min_le s rest
  by_cases h1 : p < rest.foldl min s
  · have hcl : classify_trial p (s :: rest) = Outcome.win := by
      simp [classify_trial, h1]
    refine ⟨⟨fun _ q hq => lt_of_lt_of_le h1 (hle q hq), fun _ => hcl⟩, ?_, ?_⟩
    · constructor
      · intro h3
        rw [hcl] at h3
        exact Outcome.noConfusion h3
      · rintro ⟨⟨q, hq, hqp⟩, -⟩
        have hpq : p < q := lt_of_lt_of_le h1 (hle q hq)
        rw [hqp] at hpq
        exact absurd hpq (lt_irrefl p)
    · constructor
      · intro h3
        rw [hcl] at h3
        exact Outcome.noConfusion h3
      · rintro ⟨q, hq, hqlt⟩
        exact absurd (lt_trans (lt_of_lt_of_le h1 (hle q hq)) hqlt) (lt_irrefl p)
  · by_cases h2 : p = rest.foldl min s
    · have hcl : classify_trial p (s :: rest) = Outcome.tie := by
        simp [classify_trial, h1, h2]
      refine ⟨?_, ?_, ?_⟩
      · constructor
        · intro h3
          rw [hcl] at h3
          exact Outcome.noConfusion h3
        · intro hall
          exact absurd (hall _ hmem) h1
      · refine ⟨fun _ => ⟨⟨rest.foldl min s, hmem, h2.symm⟩, ?_⟩, fun _ => hcl⟩
        intro q hq hqlt
        have hpq : p ≤ q := by
          rw [h2]
          exact hle q hq
        exact absurd hqlt (not_lt.mpr hpq)
      · constructor
        · intro h3
          rw [hcl] at h3
          exact Outcome.noConfusion h3
        · rintro ⟨q, hq, hqlt⟩
          have hpq : p ≤ q := by
            rw [h2]
            exact hle q hq
          exact absurd hqlt (not_lt.mpr hpq)
    · have hlt : rest.foldl min s < p :=
        lt_of_le_of_ne (not_lt.mp h1) (fun he => h2 he.symm)
      have hcl : classify_trial p (s :: rest) = Outcome.loss := by
        simp [classify_trial, h1, h2]
      refine ⟨?_, ?_, ?_⟩
      · constructor
        · intro h3
          rw [hcl] at h3
          exact Outcome.noConfusion h3
        · intro hall
          exact absurd (hall _ hmem) (not_lt.mpr (le_of_lt hlt))
      · constructor
        · intro h3
          rw [hcl] at h3
          exact Outcome.noConfusion h3
        · rintro ⟨-, hnone⟩
          exact absurd hlt (hnone _ hmem)
      · exact ⟨fun _ => ⟨rest.foldl min s, hmem, hlt⟩, fun _ => hcl⟩

/-- C1: for every valid input (2 hole cards, at most 5 board cards, at
least one opponent, at least one trial) — and for every evaluator
behaviour and every sequence of shuffled decks — `estimate_win_probability`
returns three values each lying in [0, 1] whose sum is exactly 1 (the
rational embedding makes the floating tolerance exact). -/
theorem estimate_win_probability_closure (ev : List String → List String → ℤ)
    (decks : ℕ → List String) (hole_cards community_cards : List String)
    (num_opponents trials : ℕ) (hh : hole_cards.length = 2)
    (hb : community_cards.length ≤ 5) (hn : 1 ≤ num_opponents) (ht : 1 ≤ trials) :
    (0 ≤ (estimate_win_probability ev decks hole_cards community_cards num_opponents trials).1 ∧
      (estimate_win_probability ev decks hole_cards community_cards num_opponents trials).1 ≤ 1) ∧
    (0 ≤ (estimate_win_probability ev decks hole_cards community_cards num_opponents trials).2.1 ∧
      (estimate_win_probability ev decks hole_cards community_cards num_opponents trials).2.1 ≤ 1) ∧
    (0 ≤ (estimate_win_probability ev decks hole_cards community_cards num_opponents trials).2.2 ∧
      (estimate_win_probability ev decks hole_cards community_cards num_opponents trials).2.2 ≤ 1) ∧
    (estimate_win_probability ev decks hole_cards community_cards num_opponents trials).1 +
      (estimate_win_probability ev decks hole_cards community_cards num_opponents trials).2.1 +
      (estimate_win_probability ev decks hole_cards community_cards num_opponents trials).2.2 = 1 :=
  estimate_spec ev decks hole_cards community_cards num_opponents trials ht

/-- Witness for C1 at a concrete valid input: pocket aces, empty board,
one opponent, one trial, constant evaluator, fixed deck order. -/
theorem estimate_win_probability_closure_witness :
    (0 ≤ (estimate_win_probability const_eval const_decks ["Ah", "Ad"] [] 1 1).1 ∧
      (estimate_win_probability const_eval const_decks ["Ah", "Ad"] [] 1 1).1 ≤ 1) ∧
    (0 ≤ (estimate_win_probability const_eval const_decks ["Ah", "Ad"] [] 1 1).2.1 ∧
      (estimate_win_probability const_eval const_decks ["Ah", "Ad"] [] 1 1).2.1 ≤ 1) ∧
    (0 ≤ (estimate_win_probability const_eval const_decks ["Ah", "Ad"] [] 1 1).2.2 ∧
      (estimate_win_probability const_eval const_decks ["Ah", "Ad"] [] 1 1).2.2 ≤ 1) ∧
    (estimate_win_probability const_eval const_decks ["Ah", "Ad"] [] 1 1).1 +
      (estimate_win_probability const_eval const_decks ["Ah", "Ad"] [] 1 1).2.1 +
      (estimate_win_probability const_eval const_decks ["Ah", "Ad"] [] 1 1).2.2 = 1 :=
  estimate_win_probability_closure const_eval const_decks ["Ah", "Ad"] [] 1 1
    (by decide) (by decide) (by decide) (by decide)

/-- C5 counterexample: an input whose hole cards and board share the card
"Ah" is not rejected — no invalid-hand error exists anywhere in the code —
and the simulation silently returns an ordinary probability triple. -/
theorem duplicate_cards_silently_accepted :
    has_duplicate_cards ["Ah", "Ad"] ["Ah", "Ks", "Qd"] = true ∧
    estimate_win_probability const_eval const_decks ["Ah", "Ad"] ["Ah", "Ks", "Qd"] 1 1 =
      (0, 1, 0) := by
  refine ⟨by decide, ?_⟩
  have h : tally (sim_outcomes const_eval const_decks ["Ah", "Ad"] ["Ah", "Ks", "Qd"] 1 1) =
      (0, 1, 0) := by decide
  simp [estimate_win_probability, h]

/-- C5 amended: inputs with a card duplicated across hole and board are
silently accepted — for every evaluator and deck oracle the simulation
still returns a nonnegative triple summing to 1 rather than surfacing any
invalid-hand error (the known-card removal deduplicates via a set). -/
theorem estimate_win_probability_accepts_duplicates
    (ev : List String → List String → ℤ) (decks : ℕ → List String)
    (hole_cards community_cards : List String) (num_opponents trials : ℕ)
    (ht : 1 ≤ trials) (hdup : has_duplicate_cards hole_cards community_cards = true) :
    0 ≤ (estimate_win_probability ev decks hole_cards community_cards num_opponents trials).1 ∧
    0 ≤ (estimate_win_probability ev decks hole_cards community_cards num_opponents trials).2.1 ∧
    0 ≤ (estimate_win_probability ev decks hole_cards community_cards num_opponents trials).2.2 ∧
    (estimate_win_probability ev decks hole_cards community_cards num_opponents trials).1 +
      (estimate_win_probability ev decks hole_cards community_cards num_opponents trials).2.1 +
      (estimate_win_probability ev decks hole_cards community_cards num_opponents trials).2.2 = 1 := by
  have h := estimate_spec ev decks hole_cards community_cards num_opponents trials ht
  exact ⟨h.1.1, h.2.1.1, h.2.2.1.1, h.2.2.2⟩

/-- Witness for the amended C5 at a concrete duplicate-card input. -/
theorem estimate_win_probability_accepts_duplicates_witness :
    0 ≤ (estimate_win_probability const_eval const_decks ["2h", "2d"] ["2h"] 1 1).1 ∧
    0 ≤ (estimate_win_probability const_eval const_decks ["2h", "2d"] ["2h"] 1 1).2.1 ∧
    0 ≤ (estimate_win_probability const_eval const_decks ["2h", "2d"] ["2h"] 1 1).2.2 ∧
    (estimate_win_probability const_eval const_decks ["2h", "2d"] ["2h"] 1 1).1 +
      (estimate_win_probability const_eval const_decks ["2h", "2d"] ["2h"] 1 1).2.1 +
      (estimate_win_probability const_eval const_decks ["2h", "2d"] ["2h"] 1 1).2.2 = 1 :=
  estimate_win_probability_accepts_duplicates const_eval const_decks ["2h", "2d"] ["2h"] 1 1
    (by decide) (by decide)

lemma clamp01_nonneg (x : ℚ) : 0 ≤ max 0.0 (min 1.0 x) := by
  have h := le_max_left (0.0 : ℚ) (min 1.0 x)
  norm_num at h ⊢

lemma clamp01_le_one (x : ℚ) : max 0.0 (min 1.0 x) ≤ 1 := by
  have h1 : min (1.0 : ℚ) x ≤ 1.0 := min_le_left 1.0 x
  have h := max_le (by norm_num : (0.0 : ℚ) ≤ 1.0) h1
  norm_num at h ⊢

/-- C7: for every raw equity, position string, stack size, pot size and
opponent-tendency input (arbitrary rationals, in range or not), the
adjusted equity returned by `calculate_adjusted_equity` lies in [0, 1] and
equals the raw equity plus the position, stack-to-pot-ratio and aggression
adjustments, clamped to [0, 1]. -/
theorem calculate_adjusted_equity_clamped (raw_equity : ℚ) (position : String)
    (stack_size pot_size : ℚ) (aggression fold_to_bet : Option ℚ) :
    0 ≤ (calculate_adjusted_equity raw_equity position stack_size pot_size
        aggression fold_to_bet).adjusted_equity ∧
    (calculate_adjusted_equity raw_equity position stack_size pot_size
        aggression fold_to_bet).adjusted_equity ≤ 1 ∧
    (calculate_adjusted_equity raw_equity position stack_size pot_size
        aggression fold_to_bet).adjusted_equity =
      max 0.0 (min 1.0 (raw_equity + position_adjustments position +
        spr_adjustment (if pot_size > 0 then stack_size / pot_size else 10) raw_equity +
        aggression_adjustment (aggression.getD 0.5) raw_equity)) := by
  refine ⟨?_, ?_, ?_⟩
  · simp only [calculate_adjusted_equity]
    exact clamp01_nonneg _
  · simp only [calculate_adjusted_equity]
    exact clamp01_le_one _
  · simp only [calculate_adjusted_equity]

/-- C3: the optimal-action choice of `determine_optimal_action` agrees
everywhere with the spec's five-band threshold rule on adjusted equity
(with "strong position" meaning button or late), and in particular
adjusted equity 0.85 on the button with pot 100 yields a raise of 75. -/
theorem determine_optimal_action_five_bands :
    (∀ (position : Position) (pot_size adjusted_equity fold_to_cbet bluff_value : ℚ),
      determine_optimal_action position pot_size adjusted_equity fold_to_cbet bluff_value =
        optimal_action_spec position pot_size adjusted_equity fold_to_cbet bluff_value) ∧
    determine_optimal_action Position.button 100 0.85 0.6 0.1 = ("raise", 75) := by
  constructor
  · intro position pot_size e f b
    by_cases hsp : position = Position.button ∨ position = Position.late
    · have h1 : position_strength position > 0.8 := by
        unfold position_strength
        rw [if_pos hsp]
        norm_num
      simp [determine_optimal_action, optimal_action_spec, h1, hsp]
    · have h1 : ¬ position_strength position > 0.8 := by
        unfold position_strength
        rw [if_neg hsp]
        norm_num
      simp [determine_optimal_action, optimal_action_spec, h1, hsp]
  · norm_num [determine_optimal_action]

/-- C6 counterexample: position "early" with stack depth 10 is a
degenerate case (the pre-normalization weights sum to 0, not positive),
yet the returned weights are (0.1, -0.2, 0.1) — not all zero, and not
summing to 1. -/
theorem gto_strategy_degenerate_counterexample :
    calculate_gto_strategy "early" 10 100 ["AA"] ["KK"] = (0.1, -0.2, 0.1) ∧
    (gto_pre_norm "early" 10).1 + (gto_pre_norm "early" 10).2.1 +
      (gto_pre_norm "early" 10).2.2 ≤ 0 ∧
    calculate_gto_strategy "early" 10 100 ["AA"] ["KK"] ≠ (0, 0, 0) ∧
    (calculate_gto_strategy "early" 10 100 ["AA"] ["KK"]).1 +
      (calculate_gto_strategy "early" 10 100 ["AA"] ["KK"]).2.1 +
      (calculate_gto_strategy "early" 10 100 ["AA"] ["KK"]).2.2 ≠ 1 := by
  have h : ¬(("early" : String) = "button" ∨ ("early" : String) = "late") := by decide
  norm_num [calculate_gto_strategy, gto_pre_norm, h]

/-- C6 amended: for every position, stack depth, pot and nonempty ranges,
the three returned weights sum exactly to 1 whenever the
pre-normalization sum is positive; otherwise the weights are returned
unnormalized and their sum is 0 (never a division by the non-positive
sum, hence never NaN — but not necessarily all zero). -/
theorem gto_strategy_normalization (position : String) (stack_depth pot_size : ℚ)
    (hand_range opponent_range : List String)
    (hr1 : hand_range ≠ []) (hr2 : opponent_range ≠ []) :
    (0 < (gto_pre_norm position stack_depth).1 + (gto_pre_norm position stack_depth).2.1 +
        (gto_pre_norm position stack_depth).2.2 →
      (calculate_gto_strategy position stack_depth pot_size hand_range opponent_range).1 +
        (calculate_gto_strategy position stack_depth pot_size hand_range opponent_range).2.1 +
        (calculate_gto_strategy position stack_depth pot_size hand_range opponent_range).2.2 = 1) ∧
    (¬ 0 < (gto_pre_norm position stack_depth).1 + (gto_pre_norm position stack_depth).2.1 +
        (gto_pre_norm position stack_depth).2.2 →
      calculate_gto_strategy position stack_depth pot_size hand_range opponent_range =
        gto_pre_norm position stack_depth ∧
      (gto_pre_norm position stack_depth).1 + (gto_pre_norm position stack_depth).2.1 +
        (gto_pre_norm position stack_depth).2.2 = 0) := by
  constructor
  · intro hpos
    have hne : (gto_pre_norm position stack_depth).1 + (gto_pre_norm position stack_depth).2.1 +
        (gto_pre_norm position stack_depth).2.2 ≠ 0 := ne_of_gt hpos
    simp only [calculate_gto_strategy, if_pos hpos]
    rw [div_add_div_same, div_add_div_same]
    exact div_self hne
  · intro hneg
    constructor
    · simp only [calculate_gto_strategy, if_neg hneg]
    · by_cases hp : position = "button" ∨ position = "late" <;>
        by_cases hst : stack_depth < 20 <;>
        simp only [gto_pre_norm, if_pos, if_neg, hp, hst] at hneg ⊢ <;>
        norm_num at hneg ⊢

/-- Witness for the amended C6 at a concrete positive-sum input. -/
theorem gto_strategy_normalization_witness :
    (calculate_gto_strategy "button" 100 100 ["AA"] ["KK"]).1 +
      (calculate_gto_strategy "button" 100 100 ["AA"] ["KK"]).2.1 +
      (calculate_gto_strategy "button" 100 100 ["AA"] ["KK"]).2.2 = 1 := by
  have h := gto_strategy_normalization "button" 100 100 ["AA"] ["KK"] (by decide) (by decide)
  exact h.1 (by norm_num [gto_pre_norm])

/-- C9: on the button with stack depth 10 (below 20) the GTO strategy is
exactly fold 1.0, call -2.0, raise 2.0 — the weights sum to 1 but the call
weight is negative, so the result is not a probability distribution. -/
theorem gto_strategy_short_stack_button :
    calculate_gto_strategy "button" 10 100 ["AA"] ["KK"] = (1, -2, 2) ∧
    (calculate_gto_strategy "button" 10 100 ["AA"] ["KK"]).1 +
      (calculate_gto_strategy "button" 10 100 ["AA"] ["KK"]).2.1 +
      (calculate_gto_strategy "button" 10 100 ["AA"] ["KK"]).2.2 = 1 ∧
    (calculate_gto_strategy "button" 10 100 ["AA"] ["KK"]).2.1 < 0 := by
  norm_num [calculate_gto_strategy, gto_pre_norm]

/-- C10: for every position other than button/late with stack depth at
least 20, the GTO strategy is the all-zero vector, whatever the pot and
the (nonempty) ranges are. -/
theorem gto_strategy_all_zero (position : String) (stack_depth pot_size : ℚ)
    (hand_range opponent_range : List String)
    (hb : position ≠ "button") (hl : position ≠ "late") (hs : 20 ≤ stack_depth)
    (hr1 : hand_range ≠ []) (hr2 : opponent_range ≠ []) :
    calculate_gto_strategy position stack_depth pot_size hand_range opponent_range =
      (0, 0, 0) := by
  have hp : ¬(position = "button" ∨ position = "late") := fun h => h.elim hb hl
  have hsd : ¬ stack_depth < 20 := not_lt.mpr hs
  norm_num [calculate_gto_strategy, gto_pre_norm, hp, hsd]

/-- Witness for C10 at a concrete input. -/
theorem gto_strategy_all_zero_witness :
    calculate_gto_strategy "middle" 100 50 ["AA"] ["KK"] = (0, 0, 0) :=
  gto_strategy_all_zero "middle" 100 50 ["AA"] ["KK"] (by decide) (by decide)
    (by norm_num) (by decide) (by decide)

lemma calculate_raw_equity_hit (ev : List String → List String → ℤ)
    (decks : ℕ → List String) (cache : List (CacheKey × ℚ))
    (hole_cards community_cards : List String) (num_opponents trials : ℕ) (v : ℚ)
    (h : lookup_cache (cache_key hole_cards community_cards num_opponents) cache = some v) :
    calculate_raw_equity ev decks cache hole_cards community_cards num_opponents trials =
      (v, cache) := by
  simp only [calculate_raw_equity, h]

lemma calculate_raw_equity_miss (ev : List String → List String → ℤ)
    (decks : ℕ → List String) (cache : List (CacheKey × ℚ))
    (hole_cards community_cards : List String) (num_opponents trials : ℕ)
    (h : lookup_cache (cache_key hole_cards community_cards num_opponents) cache = none) :
    calculate_raw_equity ev decks cache hole_cards community_cards num_opponents trials =
      ((estimate_win_probability ev decks hole_cards community_cards num_opponents trials).1 +
        (estimate_win_probability ev decks hole_cards community_cards num_opponents trials).2.1 * 0.5,
       (cache_key hole_cards community_cards num_opponents,
        (estimate_win_probability ev decks hole_cards community_cards num_opponents trials).1 +
        (estimate_win_probability ev decks hole_cards community_cards num_opponents trials).2.1 * 0.5) ::
        cache) := by
  simp only [calculate_raw_equity, h]

/-- C2 counterexample: starting from an empty cache, computing the raw
equity for hole cards ["Ah", "Ad"] and then for the reordered hole cards
["Ad", "Ah"] (same board, same opponent count) leaves two distinct cache
entries — the second call misses, because the cache key keeps the cards in
caller order instead of canonicalizing by sorting. -/
theorem cache_key_not_canonicalized :
    (calculate_raw_equity const_eval const_decks
        ((calculate_raw_equity const_eval const_decks [] ["Ah", "Ad"] [] 1 1).2)
        ["Ad", "Ah"] [] 1 1).2.length = 2 ∧
    cache_key ["Ah", "Ad"] [] 1 ≠ cache_key ["Ad", "Ah"] [] 1 := by
  decide

/-- C2 amended: the cache key is the exact (hole tuple, board tuple,
opponent count) triple, with card order significant.  A repeated call with
the cards in the same order and the same opponent count returns the
cached value and leaves the cache unchanged, and an insertion for one
opponent count never changes what a different opponent count's key looks
up — one count never reuses another count's entry. -/
theorem cache_exact_key_behavior (ev : List String → List String → ℤ)
    (decks : ℕ → List String) (cache : List (CacheKey × ℚ))
    (hole_cards community_cards : List String) (num_opponents trials other_count : ℕ) :
    (calculate_raw_equity ev decks
        (calculate_raw_equity ev decks cache hole_cards community_cards num_opponents trials).2
        hole_cards community_cards num_opponents trials =
      calculate_raw_equity ev decks cache hole_cards community_cards num_opponents trials) ∧
    (other_count ≠ num_opponents →
      lookup_cache (cache_key hole_cards community_cards other_count)
        (calculate_raw_equity ev decks cache hole_cards community_cards num_opponents trials).2 =
      lookup_cache (cache_key hole_cards community_cards other_count) cache) := by
  cases h : lookup_cache (cache_key hole_cards community_cards num_opponents) cache with
  | some v =>
    have h1 := calculate_raw_equity_hit ev decks cache hole_cards community_cards
      num_opponents trials v h
    rw [h1]
    exact ⟨calculate_raw_equity_hit ev decks cache hole_cards community_cards
      num_opponents trials v h, fun _ => rfl⟩
  | none =>
    have h1 := calculate_raw_equity_miss ev decks cache hole_cards community_cards
      num_opponents trials h
    rw [h1]
    constructor
    · exact calculate_raw_equity_hit ev decks _ hole_cards community_cards
        num_opponents trials _ (by simp [lookup_cache])
    · intro hne
      have hk : ¬(cache_key hole_cards community_cards other_count =
          cache_key hole_cards community_cards num_opponents) := by
        simp [cache_key, hne]
      simp [lookup_cache, hk]

/-- Witness for the amended C2 at a concrete input, with opponent counts
1 and 2. -/
theorem cache_exact_key_behavior_witness :
    (calculate_raw_equity const_eval const_decks
        (calculate_raw_equity const_eval const_decks [] ["Ah", "Ad"] [] 1 1).2
        ["Ah", "Ad"] [] 1 1 =
      calculate_raw_equity const_eval const_decks [] ["Ah", "Ad"] [] 1 1) ∧
    lookup_cache (cache_key ["Ah", "Ad"] [] 2)
        (calculate_raw_equity const_eval const_decks [] ["Ah", "Ad"] [] 1 1).2 =
      lookup_cache (cache_key ["Ah", "Ad"] [] 2) [] := by
  have h := cache_exact_key_behavior const_eval const_decks [] ["Ah", "Ad"] [] 1 1 2
  exact ⟨h.1, h.2 (by decide)⟩

/-- C8 counterexample: with a big blind of 10 and a bankroll of 10000 the
engine's bankroll recommendation is the DANGER tier (the bankroll is 10
buy-ins of 100 big blinds, below the threshold of 20), not SAFE. -/
theorem bankroll_recommendation_counterexample :
    get_bankroll_recommendation 10 0.5 10000 =
      "DANGER: Insufficient bankroll for this stake level" ∧
    get_bankroll_recommendation 10 0.5 10000 ≠
      "SAFE: Strong bankroll for this stake level" := by
  constructor
  · norm_num [get_bankroll_recommendation]
  · norm_num [get_bankroll_recommendation]
    decide

/-- C8 amended: the two cited code paths disagree at bankroll 10000 and
stake 10 — `_get_bankroll_recommendation`, whose stake reference is the
big blind, returns the DANGER tier (ratio 10 buy-ins), while the
`/analyze/bankroll` endpoint's plain bankroll/stake ratio (1000 > 100)
returns "SAFE". -/
theorem bankroll_recommendation_split :
    get_bankroll_recommendation 10 0.5 10000 =
      "DANGER: Insufficient bankroll for this stake level" ∧
    analyze_bankroll_recommendation 10000 10 = "SAFE" := by
  constructor
  · norm_num [get_bankroll_recommendation]
  · norm_num [analyze_bankroll_recommendation]
